import Mathlib

/-!
# Proposal builder of the fabric-gateway client

A shallow embedding of `pkg/client/proposalbuilder.go`: the builder state, its
functional options, the construction of the chaincode argument vector and the
`build` pipeline (creator retrieval, proposal derivation, serialization); and
of the generated client method `Commit` of `protos/gateway.pb.go`.

Conventions of the embedding

* A Go `string` is a finite sequence of bytes (`GoString`); `[]byte(s)` yields
  exactly these bytes.
* A Go slice is a `List`; the nil slice and the empty slice are both `[]`
  (`len`, `append`, `copy` and indexing do not tell them apart).
* A Go `map[string][]byte` is a finite map with unique keys; the nil map and the
  empty map are both the empty finite map.
* A method with a pointer receiver that mutates its receiver becomes a function
  returning the new state.  Pointers to shared collaborators (the signing
  identity, the RPC client) are handles; their behaviour lives in `World`.
* A Go function returning `(value, error)` returns a pair whose second
  component is `Option GoError` (`none` is the nil error).
* A run-time panic (an index out of range, a panic inside a called function) is
  the `none` of an `Option`: the function does not return.  A run keeps the
  calls made up to the panic.
-/

namespace FabricGateway

/-! ## Strings, bytes and errors -/

/-- Byte slices, `[]byte`. -/
abbrev Bytes := List UInt8

/-- Go strings: immutable byte sequences. -/
structure GoString where
  bytes : List UInt8
deriving DecidableEq, Repr

/-- The empty string, the zero value of `string`. -/
def GoString.empty : GoString := ⟨[]⟩

/-- A Go string literal: Go source text is UTF-8 encoded. -/
def GoString.lit (s : String) : GoString := ⟨s.data.flatMap String.utf8EncodeChar⟩

/-- String concatenation, `s + t`. -/
def GoString.append (s t : GoString) : GoString := ⟨s.bytes ++ t.bytes⟩

/-- The conversion `[]byte(s)`. -/
def GoString.toBytes (s : GoString) : Bytes := s.bytes

/-- Go `error` values: a leaf error, or the `*fmt.wrapError` that `fmt.Errorf`
produces for a format with a `%w` verb. -/
inductive GoError where
  | leaf (msg : GoString)
  | wrapError (msg : GoString) (err : GoError)
deriving DecidableEq, Repr

/-- The method `Error()`. -/
def GoError.Error : GoError → GoString
  | .leaf msg => msg
  | .wrapError msg _ => msg

/-- The method `Unwrap()`; a leaf error has none. -/
def GoError.Unwrap : GoError → Option GoError
  | .leaf _ => none
  | .wrapError _ err => some err

/-- The unwrap chain of an error: the error itself, then what `Unwrap` yields,
repeatedly. -/
def GoError.chain : GoError → List GoError
  | .leaf msg => [.leaf msg]
  | .wrapError msg err => .wrapError msg err :: err.chain

/-- The test `errors.Is(err, target)` for the comparable errors of the model. -/
def errorsIs (err target : GoError) : Bool := decide (target ∈ err.chain)

/-- The call `fmt.Errorf(context + ": %w", err)`. -/
def Errorf_w (context : GoString) (err : GoError) : GoError :=
  .wrapError ((context.append (GoString.lit ": ")).append err.Error) err

/-! ## Messages of the imported protobuf packages -/

/-- The map type `map[string][]byte`. -/
abbrev TransientMap := Finmap (fun _ : GoString => Bytes)

/-- Enumeration `peer.ChaincodeSpec_Type`. -/
inductive ChaincodeSpec_Type where
  | ChaincodeSpec_UNDEFINED
  | ChaincodeSpec_GOLANG
  | ChaincodeSpec_NODE
  | ChaincodeSpec_CAR
  | ChaincodeSpec_JAVA
deriving DecidableEq, Repr

/-- Enumeration `common.HeaderType`. -/
inductive HeaderType where
  | HeaderType_MESSAGE
  | HeaderType_CONFIG
  | HeaderType_CONFIG_UPDATE
  | HeaderType_ENDORSER_TRANSACTION
  | HeaderType_ORDERER_TRANSACTION
  | HeaderType_DELIVER_SEEK_INFO
  | HeaderType_CHAINCODE_PACKAGE
deriving DecidableEq, Repr

/-- Message `peer.ChaincodeID`. -/
structure ChaincodeID where
  Path : GoString := GoString.empty
  Name : GoString := GoString.empty
  Version : GoString := GoString.empty
deriving DecidableEq

/-- Message `peer.ChaincodeInput`. -/
structure ChaincodeInput where
  Args : List Bytes := []
  Decorations : TransientMap := ∅
  IsInit : Bool := false
deriving DecidableEq

/-- Message `peer.ChaincodeSpec`; the message-typed fields are pointers. -/
structure ChaincodeSpec where
  Type_ : ChaincodeSpec_Type := .ChaincodeSpec_UNDEFINED
  ChaincodeId : Option ChaincodeID := none
  Input : Option ChaincodeInput := none
  Timeout : Int := 0
deriving DecidableEq

/-- Message `peer.ChaincodeInvocationSpec`. -/
structure ChaincodeInvocationSpec where
  ChaincodeSpec : Option ChaincodeSpec := none
deriving DecidableEq

/-- Message `peer.Proposal`. -/
structure PeerProposal where
  Header : Bytes := []
  Payload : Bytes := []
  Extension : Bytes := []
deriving DecidableEq, Repr

/-- Message `peer.SignedProposal`. -/
structure SignedProposal where
  ProposalBytes : Bytes := []
  Signature : Bytes := []
deriving DecidableEq, Repr

/-- Message `gateway.ProposedTransaction` as `protos/gateway.pb.go` declares
it: its one field is `Proposal`. -/
structure ProposedTransaction where
  Proposal : Option SignedProposal := none
deriving DecidableEq, Repr

/-! ## Collaborators -/

/-- A `gateway.GatewayClient` interface value: a handle on the RPC client. -/
structure GatewayClient where
  cc : Nat
deriving DecidableEq, Repr

/-- A `*signingIdentity`: a handle on the caller's signing identity. -/
structure signingIdentity where
  ref : Nat
deriving DecidableEq, Repr

/-- The calls a run makes on its collaborators, in order. `Invoke` and
`NewStream` are the two entry points of the RPC connection, the only network
operations available to the client. -/
inductive Call where
  | Creator (signingID : signingIdentity)
  | Sign (signingID : signingIdentity) (message : Bytes)
  | CreateChaincodeProposalWithTransient (typ : HeaderType) (channelID : GoString)
      (cis : Option ChaincodeInvocationSpec) (creator : Bytes) (transientMap : TransientMap)
  | Marshal (m : Option PeerProposal)
  | Invoke (client : GatewayClient) (method : GoString)
  | NewStream (client : GatewayClient) (method : GoString)
deriving DecidableEq

/-- The behaviour of everything `build` calls outside this file:
the identity's `Creator()`, `protoutil.CreateChaincodeProposalWithTransient`
and `proto.Marshal`.  The derivation draws a random nonce and reads the clock;
both are inputs here (`nonce`, `now`).  The derivation serializes its headers
with `MarshalOrPanic`, so it may panic instead of returning: its result is
`none` then. -/
structure World where
  Creator : signingIdentity → Bytes × Option GoError
  nonce : Bytes
  now : Nat
  CreateChaincodeProposalWithTransient :
    Bytes → Nat → HeaderType → GoString → Option ChaincodeInvocationSpec → Bytes → TransientMap →
      Option (Option PeerProposal × GoString × Option GoError)
  Marshal : Option PeerProposal → Bytes × Option GoError

/-! ## The builder -/

/-- The struct `proposalBuilder`. -/
structure proposalBuilder where
  client : GatewayClient
  signingID : signingIdentity
  channelName : GoString
  chaincodeID : GoString
  transactionName : GoString
  transient : TransientMap
  args : List Bytes
deriving DecidableEq

/-- The struct `Proposal`, with the fields that the composite literal in
`build` names. -/
structure Proposal where
  client : GatewayClient
  signingID : signingIdentity
  proposedTransaction : Option ProposedTransaction
deriving DecidableEq

/-- The built-in `make([][]byte, n)`: `n` zero values (nil byte slices). -/
def make (n : Nat) : List Bytes := List.replicate n []

/-- The index assignment `xs[i] = v`; `none` is the index-out-of-range failure. -/
def setIndex (xs : List Bytes) (i : Nat) (v : Bytes) : Option (List Bytes) :=
  if i < xs.length then some (xs.set i v) else none

/-- The built-in `copy(dst, src)`, as the new contents of `dst`: the first
`min (len dst) (len src)` elements are overwritten. -/
def copy (dst src : List Bytes) : List Bytes :=
  src.take dst.length ++ dst.drop src.length

/-- The statement `copy(xs[lo:], src)`, as the new contents of `xs`: the
subslice shares the backing array of `xs`. -/
def copyFrom (xs : List Bytes) (lo : Nat) (src : List Bytes) : List Bytes :=
  xs.take lo ++ copy (xs.drop lo) src

/-- The method `chaincodeArgs`. -/
def proposalBuilder.chaincodeArgs (builder : proposalBuilder) : Option (List Bytes) :=
  let result := make (builder.args.length + 1)
  match setIndex result 0 builder.transactionName.toBytes with
  | none => none
  | some result =>
    let result := copyFrom result 1 builder.args
    some result

/-- The type `ProposalOption`: a function on the builder that may fail. -/
abbrev ProposalOption := proposalBuilder → proposalBuilder × Option GoError

/-- The option `WithArguments`. -/
def WithArguments (args : List Bytes) : ProposalOption :=
  fun builder => ({ builder with args := builder.args ++ args }, none)

/-- The helper `stringsAsBytes`. -/
def stringsAsBytes (strings : List GoString) : List Bytes :=
  strings.foldl (fun results v => results ++ [v.toBytes]) []

/-- The option `WithStringArguments`. -/
def WithStringArguments (args : List GoString) : ProposalOption :=
  WithArguments (stringsAsBytes args)

/-- The option `WithTransient`. -/
def WithTransient (transient : TransientMap) : ProposalOption :=
  fun builder => ({ builder with transient := transient }, none)

/-- The method `newProposalProto`, with the calls it makes.  The first
component is `none` when the method does not return: the index write of
`chaincodeArgs` fails, or the derivation panics. -/
def proposalBuilder.newProposalProto (w : World) (builder : proposalBuilder) :
    Option (Option PeerProposal × GoString × Option GoError) × List Call :=
  match builder.chaincodeArgs with
  | none => (none, [])
  | some chaincodeArgs =>
    let invocationSpec : ChaincodeInvocationSpec :=
      { ChaincodeSpec := some
          { Type_ := .ChaincodeSpec_NODE
            ChaincodeId := some { Name := builder.chaincodeID }
            Input := some { Args := chaincodeArgs } } }
    let (creator, err) := w.Creator builder.signingID
    let calls := [Call.Creator builder.signingID]
    match err with
    | some err =>
      (some (none, GoString.empty,
        some (Errorf_w (GoString.lit "Failed to serialize identity") err)), calls)
    | none =>
      let calls := calls ++ [Call.CreateChaincodeProposalWithTransient
          .HeaderType_ENDORSER_TRANSACTION builder.channelName (some invocationSpec) creator
          builder.transient]
      match w.CreateChaincodeProposalWithTransient w.nonce w.now
          .HeaderType_ENDORSER_TRANSACTION
          builder.channelName
          (some invocationSpec)
          creator
          builder.transient with
      | none => (none, calls)
      | some (result, transactionID, err) =>
        match err with
        | some err =>
          (some (none, GoString.empty,
            some (Errorf_w (GoString.lit "Failed to create chaincode proposal") err)), calls)
        | none => (some (result, transactionID, none), calls)

/-- The method `build`, with the calls it makes; the first component is `none`
when `newProposalProto` does not return.  The composite literal for
`gateway.ProposedTransaction` also names `TxId: transactionID` and
`ChannelId: builder.channelName`; the struct declares neither field, so the
value built here holds `Proposal` alone and `transactionID` goes unused. -/
def proposalBuilder.build (w : World) (builder : proposalBuilder) :
    Option (Option Proposal × Option GoError) × List Call :=
  match builder.newProposalProto w with
  | (none, calls) => (none, calls)
  | (some (proposalProto, _transactionID, err), calls) =>
    match err with
    | some err =>
      (some (none, some (Errorf_w (GoString.lit "Failed to create Proposal protobuf") err)), calls)
    | none =>
      let (proposalBytes, err) := w.Marshal proposalProto
      let calls := calls ++ [Call.Marshal proposalProto]
      match err with
      | some err =>
        (some (none,
          some (Errorf_w (GoString.lit "Failed to marshall Proposal protobuf") err)), calls)
      | none =>
        let signedProposalProto : SignedProposal := { ProposalBytes := proposalBytes }
        let proposedTransactionProto : ProposedTransaction :=
          { Proposal := some signedProposalProto }
        let proposal : Proposal :=
          { client := builder.client
            signingID := builder.signingID
            proposedTransaction := some proposedTransactionProto }
        (some (some proposal, none), calls)

/-! ## Observations on a run of `build` -/

/-- The returned pair `(*Proposal, error)` of a run; `none` when the run does
not return. -/
def returned (run : Option (Option Proposal × Option GoError) × List Call) :
    Option (Option Proposal × Option GoError) :=
  run.1

/-- The calls of a run. -/
def callsOf (run : Option (Option Proposal × Option GoError) × List Call) : List Call :=
  run.2

/-- Whether a call is the proposal-derivation step. -/
def Call.isDerivation : Call → Bool
  | .CreateChaincodeProposalWithTransient _ _ _ _ _ => true
  | _ => false

/-- Whether a call is protobuf marshalling. -/
def Call.isMarshal : Call → Bool
  | .Marshal _ => true
  | _ => false

/-- Whether a call goes to the network. -/
def Call.isNetwork : Call → Bool
  | .Invoke _ _ => true
  | .NewStream _ _ => true
  | _ => false

/-- The creator retrieval as `newProposalProto` runs it. -/
def creatorOf (w : World) (builder : proposalBuilder) : Bytes × Option GoError :=
  w.Creator builder.signingID

/-- The proposal derivation as `newProposalProto` runs it on the creator bytes
it obtained. -/
def derivationOf (w : World) (builder : proposalBuilder) (creator : Bytes) :
    Option (Option PeerProposal × GoString × Option GoError) :=
  w.CreateChaincodeProposalWithTransient w.nonce w.now .HeaderType_ENDORSER_TRANSACTION
    builder.channelName
    (some
      { ChaincodeSpec := some
          { Type_ := .ChaincodeSpec_NODE
            ChaincodeId := some { Name := builder.chaincodeID }
            Input := some { Args := builder.transactionName.toBytes :: builder.args } } })
    creator builder.transient

/-- The record of the derivation call as `newProposalProto` makes it. -/
def derivationCallOf (builder : proposalBuilder) (creator : Bytes) : Call :=
  Call.CreateChaincodeProposalWithTransient .HeaderType_ENDORSER_TRANSACTION
    builder.channelName
    (some
      { ChaincodeSpec := some
          { Type_ := .ChaincodeSpec_NODE
            ChaincodeId := some { Name := builder.chaincodeID }
            Input := some { Args := builder.transactionName.toBytes :: builder.args } } })
    creator builder.transient

/-- The serialization as `build` runs it on a derived proposal. -/
def serializationOf (w : World) (proposalProto : Option PeerProposal) :
    Bytes × Option GoError :=
  w.Marshal proposalProto

/-! ## Composition of options -/

/-- The string-argument option as the specification words it: each string is
encoded as its bytes, and the result is handed to `WithArguments`. -/
def WithStringArguments_spec (args : List GoString) : ProposalOption :=
  WithArguments (args.map GoString.toBytes)

/-- Two options applied one after the other to a builder: the second runs on
the state the first left; both returned errors are kept. -/
def applyTwo (first second : ProposalOption) (builder : proposalBuilder) :
    proposalBuilder × Option GoError × Option GoError :=
  let r1 := first builder
  let r2 := second r1.1
  (r2.1, r1.2, r2.2)

/-! ## Concrete inputs -/

/-- A stand-in for the external steps: the creator is the bytes `[1, 2, 3]`,
the derived proposal carries creator and nonce in its header and the
concatenated arguments in its payload, marshalling concatenates the three
fields.  Each step fails with the error given for it, if any; the derivation
panics on a channel name holding the byte `0xff`, which no UTF-8 text holds. -/
def sampleWorld (creatorErr deriveErr marshalErr : Option GoError) : World where
  Creator := fun _ => (if creatorErr.isSome then [] else [1, 2, 3], creatorErr)
  nonce := [7, 7]
  now := 1600000000
  CreateChaincodeProposalWithTransient := fun nonce _ _ channelID cis creator _ =>
    if channelID.bytes.contains 255 then none
    else
      match deriveErr with
      | some e => some (none, GoString.empty, some e)
      | none =>
        let args : List Bytes :=
          match cis with
          | some { ChaincodeSpec := some { Input := some input, .. } } => input.Args
          | _ => []
        some (some { Header := creator ++ nonce, Payload := channelID.bytes ++ args.flatten },
          ⟨nonce ++ creator⟩, none)
  Marshal := fun m =>
    match marshalErr with
    | some e => ([], some e)
    | none =>
      match m with
      | some p => (p.Header ++ p.Payload ++ p.Extension, none)
      | none => ([], none)

/-- A builder for channel `mychannel`, chaincode `mycc`, function `put`. -/
def sampleBuilder : proposalBuilder where
  client := ⟨1⟩
  signingID := ⟨1⟩
  channelName := GoString.lit "mychannel"
  chaincodeID := GoString.lit "mycc"
  transactionName := GoString.lit "put"
  transient := ∅
  args := [[107, 49], [118, 49]]

/-- The sample builder with an empty chaincode ID and an empty transaction name. -/
def unnamedBuilder : proposalBuilder :=
  { sampleBuilder with chaincodeID := GoString.empty, transactionName := GoString.empty }

/-- A builder as its constructor leaves it: no arguments yet. -/
def freshBuilder : proposalBuilder := { sampleBuilder with args := [] }

/-- The sample builder with the one-byte channel name `0xff`. -/
def badChannelBuilder : proposalBuilder :=
  { sampleBuilder with channelName := ⟨[255]⟩ }

/-- Two transient maps with different keys. -/
def transientK1 : TransientMap := Finmap.singleton (GoString.lit "k1") [1]

/-- The second of the two transient maps. -/
def transientK2 : TransientMap := Finmap.singleton (GoString.lit "k2") [2]

/-- A leaf error used by the concrete inputs. -/
def sampleError : GoError := .leaf (GoString.lit "boom")

/-! ## The receiver of `chaincodeArgs` and the result of `newProposalProto` -/

/-- The method `chaincodeArgs` as a run on its pointer receiver: the receiver
after the call and the returned slice.  The body assigns the local `result`
only (`make`, the write to index 0, `copy` with `result[1:]` as destination). -/
def proposalBuilder.chaincodeArgsRun (builder : proposalBuilder) :
    Option (proposalBuilder × List Bytes) :=
  let result := make (builder.args.length + 1)
  match setIndex result 0 builder.transactionName.toBytes with
  | none => none
  | some result =>
    let result := copyFrom result 1 builder.args
    some (builder, result)

/-- The returned triple `(*peer.Proposal, string, error)` of a run of
`newProposalProto`; `none` when the run does not return. -/
def returnedProto (run : Option (Option PeerProposal × GoString × Option GoError) × List Call) :
    Option (Option PeerProposal × GoString × Option GoError) :=
  run.1

/-- The calls of a run of `newProposalProto`. -/
def callsOfProto (run : Option (Option PeerProposal × GoString × Option GoError) × List Call) :
    List Call :=
  run.2

/-! ## The generated RPC client, `protos/gateway.pb.go` -/

/-- Message `gateway.Result`. -/
structure Result where
  Value : Bytes := []
deriving DecidableEq, Repr

/-- Message `common.Envelope`. -/
structure Envelope where
  Payload : Bytes := []
  Signature : Bytes := []
deriving DecidableEq, Repr

/-- Message `gateway.PreparedTransaction`. -/
structure PreparedTransaction where
  TxId : GoString := GoString.empty
  Response : Option Result := none
  Envelope : Option Envelope := none
deriving DecidableEq, Repr

/-- A `grpc.StreamDesc`, without its server-side handler. -/
structure StreamDesc where
  StreamName : GoString
  ServerStreams : Bool := false
  ClientStreams : Bool := false
deriving DecidableEq, Repr

/-- The field `Streams` of `_Gateway_serviceDesc`. -/
def _Gateway_serviceDesc_Streams : List StreamDesc :=
  [{ StreamName := GoString.lit "Commit", ServerStreams := true }]

/-- A `context.Context` value: a handle. -/
structure Context where
  id : Nat
deriving DecidableEq, Repr

/-- A `grpc.CallOption` value: a handle. -/
structure CallOption where
  id : Nat
deriving DecidableEq, Repr

/-- A `grpc.ClientStream` interface value: a handle on an open stream.  A
stream returned with a nil error is a usable stream. -/
structure ClientStream where
  id : Nat
deriving DecidableEq, Repr

/-- The struct `gatewayCommitClient`, which embeds the stream. -/
structure gatewayCommitClient where
  ClientStream : ClientStream
deriving DecidableEq, Repr

/-- The calls a run of the generated client makes on the gRPC connection and
on the stream it opened, in order. -/
inductive StreamCall where
  | NewStream (cc : Nat) (ctx : Context) (desc : StreamDesc) (method : GoString)
      (opts : List CallOption)
  | SendMsg (stream : ClientStream) (m : Option PreparedTransaction)
  | CloseSend (stream : ClientStream)
deriving DecidableEq, Repr

/-- The behaviour of the gRPC library under the generated client:
`ClientConnInterface.NewStream`, `ClientStream.SendMsg` and
`ClientStream.CloseSend`. -/
structure Transport where
  NewStream : Nat → Context → StreamDesc → GoString → List CallOption →
    ClientStream × Option GoError
  SendMsg : ClientStream → Option PreparedTransaction → Option GoError
  CloseSend : ClientStream → Option GoError

/-- The method `gatewayClient.Commit`, with the calls it makes.  The outer
`none` is the run-time failure of the index expression `Streams[0]`. -/
def gatewayClient.Commit (t : Transport) (c : GatewayClient) (ctx : Context)
    (in_ : Option PreparedTransaction) (opts : List CallOption) :
    Option ((Option gatewayCommitClient × Option GoError) × List StreamCall) :=
  match _Gateway_serviceDesc_Streams[0]? with
  | none => none
  | some desc =>
    let (stream, err) :=
      t.NewStream c.cc ctx desc (GoString.lit "/protos.Gateway/Commit") opts
    let calls := [StreamCall.NewStream c.cc ctx desc (GoString.lit "/protos.Gateway/Commit") opts]
    match err with
    | some err => some ((none, some err), calls)
    | none =>
      let x : gatewayCommitClient := { ClientStream := stream }
      let err := t.SendMsg x.ClientStream in_
      let calls := calls ++ [StreamCall.SendMsg x.ClientStream in_]
      match err with
      | some err => some ((none, some err), calls)
      | none =>
        let err := t.CloseSend x.ClientStream
        let calls := calls ++ [StreamCall.CloseSend x.ClientStream]
        match err with
        | some err => some ((none, some err), calls)
        | none => some ((some x, none), calls)

/-- The stream opening as `Commit` runs it. -/
def commitOpenOf (t : Transport) (c : GatewayClient) (ctx : Context)
    (opts : List CallOption) : ClientStream × Option GoError :=
  t.NewStream c.cc ctx { StreamName := GoString.lit "Commit", ServerStreams := true }
    (GoString.lit "/protos.Gateway/Commit") opts

/-- The record of the stream opening as `Commit` makes it. -/
def commitOpenCallOf (c : GatewayClient) (ctx : Context) (opts : List CallOption) : StreamCall :=
  StreamCall.NewStream c.cc ctx { StreamName := GoString.lit "Commit", ServerStreams := true }
    (GoString.lit "/protos.Gateway/Commit") opts

/-- A stand-in for the gRPC library: opening yields stream 5; each of the
three operations fails with the error given for it, if any. -/
def sampleTransport (openErr sendErr closeErr : Option GoError) : Transport where
  NewStream := fun _ _ _ _ _ => (⟨5⟩, openErr)
  SendMsg := fun _ _ => sendErr
  CloseSend := fun _ => closeErr

/-- A prepared transaction with ID `tx123` and an endorsed envelope. -/
def samplePrepared : PreparedTransaction :=
  { TxId := GoString.lit "tx123", Envelope := some { Payload := [9, 9], Signature := [4] } }

/-! ## Lemmas on the slice operations -/

/-- Copying `src` into a destination of the same length yields `src`. -/
theorem copy_same_length (dst src : List Bytes) (h : dst.length = src.length) :
    copy dst src = src := by
  unfold copy
  rw [h, List.take_length, ← h, List.drop_length, List.append_nil]

/-- The argument vector is the transaction name followed by the arguments. -/
theorem chaincodeArgs_eq (builder : proposalBuilder) :
    builder.chaincodeArgs = some (builder.transactionName.toBytes :: builder.args) := by
  unfold proposalBuilder.chaincodeArgs
  have hlen : 0 < (make (builder.args.length + 1)).length := by
    simp [make]
  simp only [setIndex, hlen, if_true]
  simp only [make, List.replicate_succ, List.set_cons_zero, copyFrom, List.take_succ_cons,
    List.take_zero, List.drop_succ_cons, List.drop_zero, List.singleton_append]
  rw [copy_same_length _ _ (by simp)]

/-- The loop of `stringsAsBytes` from any accumulated prefix. -/
theorem stringsAsBytes_foldl (strings : List GoString) (acc : List Bytes) :
    strings.foldl (fun results v => results ++ [v.toBytes]) acc
      = acc ++ strings.map GoString.toBytes := by
  induction strings generalizing acc with
  | nil => simp
  | cons s rest ih => simp [List.foldl_cons, ih]

/-- The helper `stringsAsBytes` converts element by element. -/
theorem stringsAsBytes_eq_map (strings : List GoString) :
    stringsAsBytes strings = strings.map GoString.toBytes := by
  unfold stringsAsBytes
  rw [stringsAsBytes_foldl]
  simp

/-! ## The argument vector and the options -/

/-- C1: `chaincodeArgs` returns a list of length `len(args) + 1` whose element 0
is the bytes of the transaction name and whose remaining elements are the
arguments in their original order, for every builder (empty arguments
included); for function `put` and arguments `key1`, `value1` it returns
`put`, `key1`, `value1`. -/
theorem chaincodeArgs_prepends_transactionName (builder : proposalBuilder) :
    (∃ result, builder.chaincodeArgs = some result
      ∧ result.length = builder.args.length + 1
      ∧ result[0]? = some builder.transactionName.toBytes
      ∧ result.drop 1 = builder.args
      ∧ result = builder.transactionName.toBytes :: builder.args)
    ∧ ({ builder with
          transactionName := GoString.lit "put"
          args := stringsAsBytes [GoString.lit "key1", GoString.lit "value1"] }
        : proposalBuilder).chaincodeArgs
        = some [(GoString.lit "put").toBytes, (GoString.lit "key1").toBytes,
            (GoString.lit "value1").toBytes]
    ∧ ({ builder with args := [] } : proposalBuilder).chaincodeArgs
        = some [builder.transactionName.toBytes] := by
  refine ⟨⟨_, chaincodeArgs_eq builder, ?_, ?_, ?_, rfl⟩, ?_, ?_⟩
  · simp
  · simp
  · simp
  · rw [chaincodeArgs_eq, stringsAsBytes_eq_map]
    simp
  · rw [chaincodeArgs_eq]

/-- C2, as stated, fails: with `a` empty and `b` a single argument (so `a ≠ b`),
or with `a = [x]` and `b = [x, x]`, the vector of a fresh builder after
`WithArguments(a...)` and `WithArguments(b...)` is the transaction name
followed by `b ++ a`. -/
theorem withArguments_swapped_vector_reachable :
    (([] : List Bytes) ≠ [[120]]
      ∧ (applyTwo (WithArguments []) (WithArguments [[120]]) freshBuilder).1.chaincodeArgs
          = some (freshBuilder.transactionName.toBytes :: ([[120]] ++ [])))
    ∧ (([[120]] : List Bytes) ≠ [[120], [120]]
      ∧ (applyTwo (WithArguments [[120]]) (WithArguments [[120], [120]])
            freshBuilder).1.chaincodeArgs
          = some (freshBuilder.transactionName.toBytes :: ([[120], [120]] ++ [[120]]))) := by
  refine ⟨⟨by decide, ?_⟩, by decide, ?_⟩
  · rw [chaincodeArgs_eq]; rfl
  · rw [chaincodeArgs_eq]; rfl

/-- C2, amended: `WithArguments(a...)` then `WithArguments(b...)` leaves the
arguments equal to the previous ones followed by `a` and then `b`, with the
same effect as the single option `WithArguments(a ++ b)`; the argument vector
is the transaction name followed by these, and on a builder without previous
arguments it is the vector of the swapped order exactly when `a ++ b = b ++ a`
(for single arguments `x`, `y`: exactly when `x = y`). -/
theorem withArguments_twice_appends_in_call_order (builder : proposalBuilder)
    (a b : List Bytes) :
    (applyTwo (WithArguments a) (WithArguments b) builder).1.args = builder.args ++ a ++ b
    ∧ applyTwo (WithArguments a) (WithArguments b) builder
        = ((WithArguments (a ++ b) builder).1, none, (WithArguments (a ++ b) builder).2)
    ∧ (applyTwo (WithArguments a) (WithArguments b) builder).1.chaincodeArgs
        = some (builder.transactionName.toBytes :: (builder.args ++ a ++ b))
    ∧ (applyTwo (WithArguments a) (WithArguments b)
          { builder with args := [] }).1.chaincodeArgs
        = some (builder.transactionName.toBytes :: (a ++ b))
    ∧ ((applyTwo (WithArguments a) (WithArguments b)
          { builder with args := [] }).1.chaincodeArgs
        = some (builder.transactionName.toBytes :: (b ++ a)) ↔ a ++ b = b ++ a)
    ∧ (∀ x y : Bytes,
        (applyTwo (WithArguments [x]) (WithArguments [y])
          { builder with args := [] }).1.chaincodeArgs
        = some [builder.transactionName.toBytes, y, x] ↔ x = y) := by
  refine ⟨?_, ?_, ?_, ?_, ?_, ?_⟩
  · simp [applyTwo, WithArguments]
  · simp [applyTwo, WithArguments]
  · rw [chaincodeArgs_eq]; simp [applyTwo, WithArguments]
  · rw [chaincodeArgs_eq]; simp [applyTwo, WithArguments]
  · rw [chaincodeArgs_eq]; simp [applyTwo, WithArguments]
  · intro x y
    rw [chaincodeArgs_eq]; simp [applyTwo, WithArguments]
    exact fun h => h.symm

/-- C3: `WithTransient(m1)` then `WithTransient(m2)` leaves the transient data
exactly `m2`: no key of `m1` absent from `m2` survives, and the resulting
builder depends neither on `m1` nor on the transient data held before. -/
theorem withTransient_last_call_wins (builder : proposalBuilder) (m1 m2 : TransientMap) :
    (applyTwo (WithTransient m1) (WithTransient m2) builder).1.transient = m2
    ∧ (∀ k : GoString, k ∈ m1 → k ∉ m2 →
        k ∉ (applyTwo (WithTransient m1) (WithTransient m2) builder).1.transient)
    ∧ (∀ m0 m1alt : TransientMap,
        applyTwo (WithTransient m1alt) (WithTransient m2) { builder with transient := m0 }
          = applyTwo (WithTransient m1) (WithTransient m2) builder)
    ∧ (applyTwo (WithTransient m1) (WithTransient m2) builder).1 = (WithTransient m2 builder).1
    ∧ (applyTwo (WithTransient m1) (WithTransient m2) builder).2 = (none, none) := by
  refine ⟨rfl, ?_, ?_, rfl, rfl⟩
  · intro k _ hk
    exact hk
  · intro m0 m1alt
    rfl

/-- C4: `WithStringArguments(ss...)` yields the same builder state as
`WithArguments` on the strings encoded as bytes; `stringsAsBytes` returns a
list of the same length whose i-th element is the bytes of the i-th string. -/
theorem withStringArguments_refines_withArguments (ss : List GoString)
    (builder : proposalBuilder) :
    WithStringArguments ss builder = WithStringArguments_spec ss builder
    ∧ WithStringArguments ss builder = WithArguments (ss.map GoString.toBytes) builder
    ∧ (stringsAsBytes ss).length = ss.length
    ∧ (∀ i : Nat, (stringsAsBytes ss)[i]? = (ss[i]?).map GoString.toBytes) := by
  have h := stringsAsBytes_eq_map ss
  refine ⟨?_, ?_, ?_, ?_⟩
  · simp [WithStringArguments, WithStringArguments_spec, h]
  · simp [WithStringArguments, h]
  · simp [h]
  · intro i
    simp [h]

/-! ## The build pipeline -/

/-- The run of `build` when creator retrieval fails. -/
theorem build_of_creator_error (w : World) (builder : proposalBuilder) (e : GoError)
    (h : (creatorOf w builder).2 = some e) :
    builder.build w = (some (none,
      some (Errorf_w (GoString.lit "Failed to create Proposal protobuf")
        (Errorf_w (GoString.lit "Failed to serialize identity") e))),
      [Call.Creator builder.signingID]) := by
  unfold creatorOf at h
  unfold proposalBuilder.build proposalBuilder.newProposalProto
  rw [chaincodeArgs_eq]
  simp only [h]

/-- The run of `build` when creator retrieval succeeds and the derivation
panics: `build` does not return. -/
theorem build_of_derivation_panic (w : World) (builder : proposalBuilder)
    (hc : (creatorOf w builder).2 = none)
    (hd : derivationOf w builder (creatorOf w builder).1 = none) :
    builder.build w = (none,
      [Call.Creator builder.signingID,
       derivationCallOf builder (creatorOf w builder).1]) := by
  unfold derivationOf at hd
  unfold creatorOf at hc hd ⊢
  unfold proposalBuilder.build proposalBuilder.newProposalProto
  rw [chaincodeArgs_eq]
  simp only [hc, hd]
  rfl

/-- The run of `build` when creator retrieval succeeds and derivation fails. -/
theorem build_of_derivation_error (w : World) (builder : proposalBuilder) (e : GoError)
    (proposal : Option PeerProposal) (transactionID : GoString)
    (hc : (creatorOf w builder).2 = none)
    (hd : derivationOf w builder (creatorOf w builder).1
      = some (proposal, transactionID, some e)) :
    builder.build w = (some (none,
      some (Errorf_w (GoString.lit "Failed to create Proposal protobuf")
        (Errorf_w (GoString.lit "Failed to create chaincode proposal") e))),
      [Call.Creator builder.signingID,
       derivationCallOf builder (creatorOf w builder).1]) := by
  unfold derivationOf at hd
  unfold creatorOf at hc hd ⊢
  unfold proposalBuilder.build proposalBuilder.newProposalProto
  rw [chaincodeArgs_eq]
  simp only [hc, hd]
  rfl

/-- The run of `build` when creator retrieval and derivation succeed and
serialization fails. -/
theorem build_of_marshal_error (w : World) (builder : proposalBuilder) (e : GoError)
    (proposal : Option PeerProposal) (transactionID : GoString)
    (hc : (creatorOf w builder).2 = none)
    (hd : derivationOf w builder (creatorOf w builder).1
      = some (proposal, transactionID, none))
    (hm : (serializationOf w proposal).2 = some e) :
    builder.build w = (some (none,
      some (Errorf_w (GoString.lit "Failed to marshall Proposal protobuf") e)),
      [Call.Creator builder.signingID,
       derivationCallOf builder (creatorOf w builder).1,
       Call.Marshal proposal]) := by
  unfold serializationOf at hm
  unfold derivationOf at hd
  unfold creatorOf at hc hd ⊢
  unfold proposalBuilder.build proposalBuilder.newProposalProto
  rw [chaincodeArgs_eq]
  simp only [hc, hd, hm]
  rfl

/-- The run of `build` when all three steps succeed. -/
theorem build_of_success (w : World) (builder : proposalBuilder)
    (proposal : Option PeerProposal) (transactionID : GoString)
    (hc : (creatorOf w builder).2 = none)
    (hd : derivationOf w builder (creatorOf w builder).1
      = some (proposal, transactionID, none))
    (hm : (serializationOf w proposal).2 = none) :
    builder.build w = (some (some
      { client := builder.client
        signingID := builder.signingID
        proposedTransaction := some
          { Proposal := some
              { ProposalBytes := (serializationOf w proposal).1
                Signature := [] } } }, none),
      [Call.Creator builder.signingID,
       derivationCallOf builder (creatorOf w builder).1,
       Call.Marshal proposal]) := by
  unfold serializationOf at hm ⊢
  unfold derivationOf at hd
  unfold creatorOf at hc hd ⊢
  unfold proposalBuilder.build proposalBuilder.newProposalProto
  rw [chaincodeArgs_eq]
  simp only [hc, hd, hm]
  rfl

/-- A literal that is a concatenation encodes to the concatenated encodings. -/
theorem lit_append (s t : String) :
    GoString.lit (s ++ t) = (GoString.lit s).append (GoString.lit t) := by
  simp [GoString.lit, GoString.append, String.data_append]

/-- An error is on its own unwrap chain. -/
theorem mem_chain_self (e : GoError) : e ∈ e.chain := by
  cases e <;> simp [GoError.chain]

/-- A wrapped error is reachable from what `Errorf_w` returns. -/
theorem errorsIs_Errorf_w (context : GoString) (err target : GoError)
    (h : errorsIs err target = true) : errorsIs (Errorf_w context err) target = true := by
  unfold errorsIs at h ⊢
  simp only [decide_eq_true_eq] at h ⊢
  simp [Errorf_w, GoError.chain, h]

/-- An error is reachable from itself. -/
theorem errorsIs_self (e : GoError) : errorsIs e e = true := by
  simp [errorsIs, mem_chain_self]

/-- What `Errorf_w` returns unwraps to the error it was given. -/
theorem Unwrap_Errorf_w (context : GoString) (err : GoError) :
    (Errorf_w context err).Unwrap = some err := rfl

/-- The message of what `Errorf_w` returns: context, colon, inner message. -/
theorem Error_Errorf_w (context : GoString) (err : GoError) :
    (Errorf_w context err).Error
      = (context.append (GoString.lit ": ")).append err.Error := rfl

/-- The message of an error wrapped twice under literal contexts. -/
theorem Error_Errorf_w_twice (a b : String) (err : GoError) :
    (Errorf_w (GoString.lit a) (Errorf_w (GoString.lit b) err)).Error
      = (GoString.lit ((a ++ ": ") ++ (b ++ ": "))).append err.Error := by
  rw [lit_append, lit_append, lit_append]
  simp [Errorf_w, GoError.Error, GoString.append]

/-- A wrapping error differs from the error it wraps. -/
theorem wrapError_ne (msg : GoString) (err : GoError) : GoError.wrapError msg err ≠ err := by
  intro h
  have hsize := congrArg sizeOf h
  simp at hsize

/-- An error wrapped twice differs from the innermost error. -/
theorem wrapError_twice_ne (m1 m2 : GoString) (err : GoError) :
    GoError.wrapError m1 (GoError.wrapError m2 err) ≠ err := by
  intro h
  have hsize := congrArg sizeOf h
  simp at hsize
  omega

/-- `build` returns a proposal exactly when all three steps succeed. -/
theorem build_succeeds_iff (w : World) (builder : proposalBuilder) :
    (∃ p, returned (builder.build w) = some (some p, none))
      ↔ ((creatorOf w builder).2 = none
        ∧ ∃ proposal transactionID,
            derivationOf w builder (creatorOf w builder).1
              = some (proposal, transactionID, none)
            ∧ (serializationOf w proposal).2 = none) := by
  constructor
  · rintro ⟨p, hp⟩
    rcases hc : (creatorOf w builder).2 with _ | e
    · rcases hd : derivationOf w builder (creatorOf w builder).1
        with _ | ⟨proposal, transactionID, _ | e⟩
      · rw [build_of_derivation_panic w builder hc hd] at hp
        simp [returned] at hp
      · rcases hm : (serializationOf w proposal).2 with _ | e
        · exact ⟨rfl, proposal, transactionID, rfl, hm⟩
        · rw [build_of_marshal_error w builder e proposal transactionID hc hd hm] at hp
          simp [returned] at hp
      · rw [build_of_derivation_error w builder e proposal transactionID hc hd] at hp
        simp [returned] at hp
    · rw [build_of_creator_error w builder e hc] at hp
      simp [returned] at hp
  · rintro ⟨hc, proposal, transactionID, hd, hm⟩
    rw [build_of_success w builder proposal transactionID hc hd hm]
    exact ⟨_, rfl⟩

/-- A run of `build` makes no network call. -/
theorem build_makes_no_network_call (w : World) (builder : proposalBuilder) :
    (callsOf (builder.build w)).any Call.isNetwork = false := by
  rcases hc : (creatorOf w builder).2 with _ | e
  · rcases hd : derivationOf w builder (creatorOf w builder).1
      with _ | ⟨proposal, transactionID, _ | e⟩
    · rw [build_of_derivation_panic w builder hc hd]; rfl
    · rcases hm : (serializationOf w proposal).2 with _ | e
      · rw [build_of_success w builder proposal transactionID hc hd hm]; rfl
      · rw [build_of_marshal_error w builder e proposal transactionID hc hd hm]; rfl
    · rw [build_of_derivation_error w builder e proposal transactionID hc hd]; rfl
  · rw [build_of_creator_error w builder e hc]; rfl

/-- C5: if the identity's `Creator()` returns an error `e`, `build` returns no
Proposal and an error that wraps `e` under the contexts "Failed to create
Proposal protobuf" and "Failed to serialize identity"; neither the derivation
step nor marshalling is performed. -/
theorem build_fails_when_creator_fails (w : World) (builder : proposalBuilder) (e : GoError)
    (h : (w.Creator builder.signingID).2 = some e) :
    ∃ err, returned (builder.build w) = some (none, some err)
      ∧ err = Errorf_w (GoString.lit "Failed to create Proposal protobuf")
          (Errorf_w (GoString.lit "Failed to serialize identity") e)
      ∧ errorsIs err e = true
      ∧ err.Unwrap.bind GoError.Unwrap = some e
      ∧ err.Error = (GoString.lit
          "Failed to create Proposal protobuf: Failed to serialize identity: ").append e.Error
      ∧ callsOf (builder.build w) = [Call.Creator builder.signingID]
      ∧ (callsOf (builder.build w)).any Call.isDerivation = false
      ∧ (callsOf (builder.build w)).any Call.isMarshal = false := by
  rw [build_of_creator_error w builder e h]
  refine ⟨_, rfl, rfl, ?_, rfl, ?_, rfl, rfl, rfl⟩
  · exact errorsIs_Errorf_w _ _ _ (errorsIs_Errorf_w _ _ _ (errorsIs_self e))
  · have hstr : "Failed to create Proposal protobuf: Failed to serialize identity: "
        = ("Failed to create Proposal protobuf" ++ ": ")
            ++ ("Failed to serialize identity" ++ ": ") := by
      decide
    rw [hstr, lit_append, lit_append, lit_append]
    simp [Errorf_w, GoError.Error, GoString.append]

/-- C5 at a concrete input: the sample builder in a world whose `Creator()`
fails with the sample error. -/
theorem build_fails_when_creator_fails_witness :
    ((sampleWorld (some sampleError) none none).Creator sampleBuilder.signingID).2
      = some sampleError
    ∧ ∃ err, returned (sampleBuilder.build (sampleWorld (some sampleError) none none))
          = some (none, some err)
      ∧ errorsIs err sampleError = true
      ∧ callsOf (sampleBuilder.build (sampleWorld (some sampleError) none none))
          = [Call.Creator sampleBuilder.signingID] := by
  refine ⟨rfl, ?_⟩
  obtain ⟨err, h1, _, h3, _, _, h6, _, _⟩ :=
    build_fails_when_creator_fails (sampleWorld (some sampleError) none none) sampleBuilder
      sampleError rfl
  exact ⟨err, h1, h3, h6⟩

/-- C6, as stated, fails: the builder with an empty chaincode ID and an empty
transaction name builds a Proposal, with a nil error, in the sample world. -/
theorem build_accepts_empty_names :
    unnamedBuilder.chaincodeID = GoString.empty
    ∧ unnamedBuilder.transactionName = GoString.empty
    ∧ returned (unnamedBuilder.build (sampleWorld none none none))
        = some (some
            { client := ⟨1⟩
              signingID := ⟨1⟩
              proposedTransaction := some
                { Proposal := some
                    { ProposalBytes :=
                        [1, 2, 3, 7, 7] ++ (GoString.lit "mychannel").bytes
                          ++ [107, 49, 118, 49]
                      Signature := [] } } }, none) := by
  refine ⟨rfl, rfl, ?_⟩
  rw [build_of_success (sampleWorld none none none) unnamedBuilder _ _ rfl rfl rfl]
  rfl

/-- C6, amended: `build` does not inspect the chaincode ID or the transaction
name. For a builder in which one of them is empty it returns a Proposal with a
nil error exactly when creator retrieval, derivation and serialization all
succeed, and it makes no network call. -/
theorem build_with_empty_name_depends_on_steps_only (w : World) (builder : proposalBuilder)
    (_hempty : builder.chaincodeID = GoString.empty
      ∨ builder.transactionName = GoString.empty) :
    ((∃ p, returned (builder.build w) = some (some p, none))
      ↔ ((w.Creator builder.signingID).2 = none
        ∧ ∃ proposal transactionID,
            derivationOf w builder (w.Creator builder.signingID).1
              = some (proposal, transactionID, none)
            ∧ (w.Marshal proposal).2 = none))
    ∧ (callsOf (builder.build w)).any Call.isNetwork = false :=
  ⟨build_succeeds_iff w builder, build_makes_no_network_call w builder⟩

/-- C6, amended, at a concrete input: the builder with empty names in the
sample world, where all three steps succeed. -/
theorem build_with_empty_name_depends_on_steps_only_witness :
    (unnamedBuilder.chaincodeID = GoString.empty
      ∨ unnamedBuilder.transactionName = GoString.empty)
    ∧ (∃ p, returned (unnamedBuilder.build (sampleWorld none none none)) = some (some p, none))
    ∧ (callsOf (unnamedBuilder.build (sampleWorld none none none))).any Call.isNetwork
        = false := by
  have h := build_with_empty_name_depends_on_steps_only (sampleWorld none none none)
    unnamedBuilder (Or.inl rfl)
  exact ⟨Or.inl rfl, h.1.2 ⟨rfl, _, _, rfl, rfl⟩, h.2⟩

/-- C7, as stated, fails: in the sample world the derivation panics on the
channel name `0xff` after the creator was retrieved, and `build` returns
neither a Proposal nor an error. -/
theorem build_returns_neither_when_derivation_panics :
    ((sampleWorld none none none).Creator badChannelBuilder.signingID).2 = none
    ∧ derivationOf (sampleWorld none none none) badChannelBuilder
        ((sampleWorld none none none).Creator badChannelBuilder.signingID).1 = none
    ∧ returned (badChannelBuilder.build (sampleWorld none none none)) = none
    ∧ ¬ (∃ p err, returned (badChannelBuilder.build (sampleWorld none none none))
          = some (p, err)) := by
  have hrun := build_of_derivation_panic (sampleWorld none none none) badChannelBuilder rfl rfl
  refine ⟨rfl, rfl, ?_, ?_⟩
  · rw [hrun]; rfl
  · rw [hrun]; simp [returned]

/-- C7, amended: `build` fails to return exactly when the derivation is reached
and panics. Whenever it returns, it returns exactly one of a Proposal and an
error: a Proposal with a nil error if and only if creator retrieval, derivation
and serialization all succeed, and in each of the three failure cases no
Proposal and an error, distinct from the failing step's error `e`, that
unwraps to `e` (twice for the creator and the derivation, once for the
serialization) and whose message is the contexts followed by the message of
`e`. -/
theorem build_returns_proposal_xor_error (w : World) (builder : proposalBuilder) :
    (returned (builder.build w) = none
      ↔ ((w.Creator builder.signingID).2 = none
        ∧ derivationOf w builder (w.Creator builder.signingID).1 = none))
    ∧ (∀ p err, returned (builder.build w) = some (p, err) →
        (p.isSome = true ↔ err = none) ∧ (p = none ↔ err.isSome = true))
    ∧ ((∃ p, returned (builder.build w) = some (some p, none))
      ↔ ((w.Creator builder.signingID).2 = none
        ∧ ∃ proposal transactionID,
            derivationOf w builder (w.Creator builder.signingID).1
              = some (proposal, transactionID, none)
            ∧ (w.Marshal proposal).2 = none))
    ∧ (∀ e, (w.Creator builder.signingID).2 = some e →
        ∃ err, returned (builder.build w) = some (none, some err)
          ∧ err.Unwrap.bind GoError.Unwrap = some e
          ∧ err ≠ e
          ∧ errorsIs err e = true
          ∧ err.Error = (GoString.lit
              "Failed to create Proposal protobuf: Failed to serialize identity: ").append
                e.Error)
    ∧ (∀ e proposal transactionID, (w.Creator builder.signingID).2 = none →
        derivationOf w builder (w.Creator builder.signingID).1
          = some (proposal, transactionID, some e) →
        ∃ err, returned (builder.build w) = some (none, some err)
          ∧ err.Unwrap.bind GoError.Unwrap = some e
          ∧ err ≠ e
          ∧ errorsIs err e = true
          ∧ err.Error = (GoString.lit
              "Failed to create Proposal protobuf: Failed to create chaincode proposal: ").append
                e.Error)
    ∧ (∀ e proposal transactionID, (w.Creator builder.signingID).2 = none →
        derivationOf w builder (w.Creator builder.signingID).1
          = some (proposal, transactionID, none) →
        (w.Marshal proposal).2 = some e →
        ∃ err, returned (builder.build w) = some (none, some err)
          ∧ err.Unwrap = some e
          ∧ err ≠ e
          ∧ errorsIs err e = true
          ∧ err.Error
            = (GoString.lit "Failed to marshall Proposal protobuf: ").append e.Error) := by
  refine ⟨?_, ?_, build_succeeds_iff w builder, ?_, ?_, ?_⟩
  · rcases hc : (creatorOf w builder).2 with _ | e
    · rcases hd : derivationOf w builder (creatorOf w builder).1
        with _ | ⟨proposal, transactionID, _ | e⟩
      · rw [build_of_derivation_panic w builder hc hd]
        exact ⟨fun _ => ⟨hc, hd⟩, fun _ => rfl⟩
      · rcases hm : (serializationOf w proposal).2 with _ | e
        · rw [build_of_success w builder proposal transactionID hc hd hm]
          unfold creatorOf at hc hd
          simp [returned, hc, hd]
        · rw [build_of_marshal_error w builder e proposal transactionID hc hd hm]
          unfold creatorOf at hc hd
          simp [returned, hc, hd]
      · rw [build_of_derivation_error w builder e proposal transactionID hc hd]
        unfold creatorOf at hc hd
        simp [returned, hc, hd]
    · rw [build_of_creator_error w builder e hc]
      unfold creatorOf at hc
      simp [returned, hc]
  · intro p err hret
    rcases hc : (creatorOf w builder).2 with _ | e
    · rcases hd : derivationOf w builder (creatorOf w builder).1
        with _ | ⟨proposal, transactionID, _ | e⟩
      · rw [build_of_derivation_panic w builder hc hd] at hret
        simp [returned] at hret
      · rcases hm : (serializationOf w proposal).2 with _ | e
        · rw [build_of_success w builder proposal transactionID hc hd hm] at hret
          simp only [returned, Option.some.injEq, Prod.mk.injEq] at hret
          obtain ⟨hp, he⟩ := hret
          subst hp he
          simp
        · rw [build_of_marshal_error w builder e proposal transactionID hc hd hm] at hret
          simp only [returned, Option.some.injEq, Prod.mk.injEq] at hret
          obtain ⟨hp, he⟩ := hret
          subst hp he
          simp
      · rw [build_of_derivation_error w builder e proposal transactionID hc hd] at hret
        simp only [returned, Option.some.injEq, Prod.mk.injEq] at hret
        obtain ⟨hp, he⟩ := hret
        subst hp he
        simp
    · rw [build_of_creator_error w builder e hc] at hret
      simp only [returned, Option.some.injEq, Prod.mk.injEq] at hret
      obtain ⟨hp, he⟩ := hret
      subst hp he
      simp
  · intro e hc
    rw [build_of_creator_error w builder e hc]
    refine ⟨_, rfl, rfl, wrapError_twice_ne _ _ e,
      errorsIs_Errorf_w _ _ _ (errorsIs_Errorf_w _ _ _ (errorsIs_self e)), ?_⟩
    have hstr : "Failed to create Proposal protobuf: Failed to serialize identity: "
        = ("Failed to create Proposal protobuf" ++ ": ")
            ++ ("Failed to serialize identity" ++ ": ") := by
      decide
    rw [hstr, Error_Errorf_w_twice]
  · intro e proposal transactionID hc hd
    rw [build_of_derivation_error w builder e proposal transactionID hc hd]
    refine ⟨_, rfl, rfl, wrapError_twice_ne _ _ e,
      errorsIs_Errorf_w _ _ _ (errorsIs_Errorf_w _ _ _ (errorsIs_self e)), ?_⟩
    have hstr : "Failed to create Proposal protobuf: Failed to create chaincode proposal: "
        = ("Failed to create Proposal protobuf" ++ ": ")
            ++ ("Failed to create chaincode proposal" ++ ": ") := by
      decide
    rw [hstr, Error_Errorf_w_twice]
  · intro e proposal transactionID hc hd hm
    rw [build_of_marshal_error w builder e proposal transactionID hc hd hm]
    refine ⟨_, rfl, rfl, wrapError_ne _ e, errorsIs_Errorf_w _ _ _ (errorsIs_self e), ?_⟩
    have hstr : "Failed to marshall Proposal protobuf: "
        = "Failed to marshall Proposal protobuf" ++ ": " := by
      decide
    rw [hstr, lit_append, Error_Errorf_w]

/-- C7, amended, at concrete inputs: the sample builder in the worlds where
derivation, respectively serialization, fails with the sample error, in the
world where every step succeeds, and with the channel name on which the
derivation panics. -/
theorem build_returns_proposal_xor_error_witness :
    (∃ err, returned (sampleBuilder.build (sampleWorld none (some sampleError) none))
        = some (none, some err)
      ∧ err.Unwrap.bind GoError.Unwrap = some sampleError ∧ err ≠ sampleError)
    ∧ (∃ err, returned (sampleBuilder.build (sampleWorld none none (some sampleError)))
        = some (none, some err)
      ∧ err.Unwrap = some sampleError ∧ err ≠ sampleError)
    ∧ (∃ p, returned (sampleBuilder.build (sampleWorld none none none)) = some (some p, none))
    ∧ returned (badChannelBuilder.build (sampleWorld none none none)) = none := by
  refine ⟨?_, ?_, ?_, ?_⟩
  · obtain ⟨err, h1, h2, h3, _, _⟩ :=
      (build_returns_proposal_xor_error (sampleWorld none (some sampleError) none)
        sampleBuilder).2.2.2.2.1 sampleError none GoString.empty rfl rfl
    exact ⟨err, h1, h2, h3⟩
  · obtain ⟨err, h1, h2, h3, _, _⟩ :=
      (build_returns_proposal_xor_error (sampleWorld none none (some sampleError))
        sampleBuilder).2.2.2.2.2 sampleError _ _ rfl rfl rfl
    exact ⟨err, h1, h2, h3⟩
  · exact (build_returns_proposal_xor_error (sampleWorld none none none)
      sampleBuilder).2.2.1.2 ⟨rfl, _, _, rfl, rfl⟩
  · exact (build_returns_proposal_xor_error (sampleWorld none none none)
      badChannelBuilder).1.2 ⟨rfl, rfl⟩

/-- C10: an argument option and a transient option commute: `WithArguments(a...)`
(or `WithStringArguments`) then `WithTransient(m)` yields the same builder state
and errors as `WithTransient(m)` then `WithArguments(a...)`. Two argument
options, and two transient options, are sensitive to their order. -/
theorem withArguments_withTransient_commute (builder : proposalBuilder) (a : List Bytes)
    (ss : List GoString) (m : TransientMap) :
    applyTwo (WithArguments a) (WithTransient m) builder
      = applyTwo (WithTransient m) (WithArguments a) builder
    ∧ applyTwo (WithStringArguments ss) (WithTransient m) builder
      = applyTwo (WithTransient m) (WithStringArguments ss) builder
    ∧ (applyTwo (WithArguments a) (WithTransient m) builder).1
      = { builder with args := builder.args ++ a, transient := m }
    ∧ (applyTwo (WithArguments [[97]]) (WithArguments [[98]]) builder).1
      ≠ (applyTwo (WithArguments [[98]]) (WithArguments [[97]]) builder).1
    ∧ (applyTwo (WithTransient transientK1) (WithTransient transientK2) builder).1
      ≠ (applyTwo (WithTransient transientK2) (WithTransient transientK1) builder).1 := by
  refine ⟨rfl, rfl, rfl, ?_, ?_⟩
  · intro h
    have hargs := congrArg proposalBuilder.args h
    simp [applyTwo, WithArguments] at hargs
  · intro h
    have ht := congrArg proposalBuilder.transient h
    simp only [applyTwo, WithTransient] at ht
    exact absurd ht (by decide)

/-! ## The derivation call of `newProposalProto` -/

/-- The run of `newProposalProto` when creator retrieval succeeds. -/
theorem newProposalProto_of_creator (w : World) (builder : proposalBuilder) (c : Bytes)
    (h : w.Creator builder.signingID = (c, none)) :
    builder.newProposalProto w =
      (match derivationOf w builder c with
        | none => none
        | some (_, _, some err) => some (none, GoString.empty,
            some (Errorf_w (GoString.lit "Failed to create chaincode proposal") err))
        | some (proposal, transactionID, none) => some (proposal, transactionID, none),
       [Call.Creator builder.signingID, derivationCallOf builder c]) := by
  unfold proposalBuilder.newProposalProto
  rw [chaincodeArgs_eq]
  simp only [h]
  unfold derivationOf derivationCallOf
  rcases w.CreateChaincodeProposalWithTransient w.nonce w.now
      .HeaderType_ENDORSER_TRANSACTION builder.channelName
      (some
        { ChaincodeSpec := some
            { Type_ := .ChaincodeSpec_NODE
              ChaincodeId := some { Name := builder.chaincodeID }
              Input := some { Args := builder.transactionName.toBytes :: builder.args } } })
      c builder.transient with _ | ⟨proposal, transactionID, _ | err⟩ <;> rfl

/-- C11: when `Creator()` succeeds with bytes `c`, `newProposalProto` calls the
derivation step exactly once, with header type endorser-transaction, the
builder's channel name, an invocation descriptor whose chaincode name is the
builder's chaincodeID and whose input arguments are `chaincodeArgs()` (the
transaction name followed by the arguments), the bytes `c` and the builder's
transient map; when the derivation succeeds, it returns the derived proposal
and transaction ID unchanged. -/
theorem newProposalProto_derives_once (w : World) (builder : proposalBuilder) (c : Bytes)
    (h : w.Creator builder.signingID = (c, none)) :
    ∃ cis : ChaincodeInvocationSpec,
      (callsOfProto (builder.newProposalProto w)).filter Call.isDerivation
        = [Call.CreateChaincodeProposalWithTransient .HeaderType_ENDORSER_TRANSACTION
            builder.channelName (some cis) c builder.transient]
      ∧ (callsOfProto (builder.newProposalProto w)).countP Call.isDerivation = 1
      ∧ callsOfProto (builder.newProposalProto w)
        = [Call.Creator builder.signingID,
           Call.CreateChaincodeProposalWithTransient .HeaderType_ENDORSER_TRANSACTION
            builder.channelName (some cis) c builder.transient]
      ∧ (cis.ChaincodeSpec.bind (fun spec => spec.ChaincodeId)).map (fun id => id.Name)
        = some builder.chaincodeID
      ∧ (cis.ChaincodeSpec.bind (fun spec => spec.Input)).map (fun input => input.Args)
        = builder.chaincodeArgs
      ∧ builder.chaincodeArgs = some (builder.transactionName.toBytes :: builder.args)
      ∧ cis.ChaincodeSpec.map (fun spec => spec.Type_) = some .ChaincodeSpec_NODE
      ∧ (∀ (proposal : Option PeerProposal) (transactionID : GoString),
          w.CreateChaincodeProposalWithTransient w.nonce w.now .HeaderType_ENDORSER_TRANSACTION
              builder.channelName (some cis) c builder.transient
            = some (proposal, transactionID, none) →
          returnedProto (builder.newProposalProto w) = some (proposal, transactionID, none)) := by
  rw [newProposalProto_of_creator w builder c h]
  refine ⟨{ ChaincodeSpec := some
              { Type_ := .ChaincodeSpec_NODE
                ChaincodeId := some { Name := builder.chaincodeID }
                Input := some { Args := builder.transactionName.toBytes :: builder.args } } },
    rfl, rfl, rfl, rfl, ?_, chaincodeArgs_eq builder, rfl, ?_⟩
  · rw [chaincodeArgs_eq]; rfl
  · intro proposal transactionID hd
    have hd2 : derivationOf w builder c = some (proposal, transactionID, none) := hd
    simp only [returnedProto, hd2]

/-- C11 at a concrete input: the sample builder in the sample world, whose
creator bytes are `[1, 2, 3]`. -/
theorem newProposalProto_derives_once_witness :
    (sampleWorld none none none).Creator sampleBuilder.signingID = ([1, 2, 3], none)
    ∧ (∃ cis : ChaincodeInvocationSpec,
        callsOfProto (sampleBuilder.newProposalProto (sampleWorld none none none))
          = [Call.Creator ⟨1⟩,
             Call.CreateChaincodeProposalWithTransient .HeaderType_ENDORSER_TRANSACTION
              (GoString.lit "mychannel") (some cis) [1, 2, 3] ∅]
        ∧ (callsOfProto (sampleBuilder.newProposalProto (sampleWorld none none none))).countP
            Call.isDerivation = 1
        ∧ (cis.ChaincodeSpec.bind (fun spec => spec.Input)).map (fun input => input.Args)
          = some [(GoString.lit "put").toBytes, [107, 49], [118, 49]])
    ∧ returnedProto (sampleBuilder.newProposalProto (sampleWorld none none none))
        = some (some
            { Header := [1, 2, 3, 7, 7]
              Payload := (GoString.lit "mychannel").bytes ++ [112, 117, 116, 107, 49, 118, 49] },
            ⟨[7, 7, 1, 2, 3]⟩, none) := by
  obtain ⟨cis, _, hcount, hcalls, _, hargs, hvec, _, _⟩ :=
    newProposalProto_derives_once (sampleWorld none none none) sampleBuilder [1, 2, 3] rfl
  refine ⟨rfl, ⟨cis, hcalls, hcount, hargs.trans hvec⟩, ?_⟩
  rw [newProposalProto_of_creator (sampleWorld none none none) sampleBuilder [1, 2, 3] rfl]
  rfl

/-! ## The generated `Commit` -/

/-- The run of `Commit` when opening the stream fails. -/
theorem Commit_of_open_error (t : Transport) (c : GatewayClient) (ctx : Context)
    (in_ : Option PreparedTransaction) (opts : List CallOption) (e : GoError)
    (ho : (commitOpenOf t c ctx opts).2 = some e) :
    gatewayClient.Commit t c ctx in_ opts
      = some ((none, some e), [commitOpenCallOf c ctx opts]) := by
  unfold commitOpenOf at ho
  unfold gatewayClient.Commit
  simp only [_Gateway_serviceDesc_Streams, List.getElem?_cons_zero, ho]
  rfl

/-- The run of `Commit` when the stream opens and sending fails. -/
theorem Commit_of_send_error (t : Transport) (c : GatewayClient) (ctx : Context)
    (in_ : Option PreparedTransaction) (opts : List CallOption) (e : GoError)
    (ho : (commitOpenOf t c ctx opts).2 = none)
    (hs : t.SendMsg (commitOpenOf t c ctx opts).1 in_ = some e) :
    gatewayClient.Commit t c ctx in_ opts
      = some ((none, some e),
          [commitOpenCallOf c ctx opts,
           StreamCall.SendMsg (commitOpenOf t c ctx opts).1 in_]) := by
  unfold commitOpenOf at ho hs ⊢
  unfold gatewayClient.Commit
  simp only [_Gateway_serviceDesc_Streams, List.getElem?_cons_zero, ho, hs]
  rfl

/-- The run of `Commit` when the stream opens, sending succeeds and the
half-close fails. -/
theorem Commit_of_close_error (t : Transport) (c : GatewayClient) (ctx : Context)
    (in_ : Option PreparedTransaction) (opts : List CallOption) (e : GoError)
    (ho : (commitOpenOf t c ctx opts).2 = none)
    (hs : t.SendMsg (commitOpenOf t c ctx opts).1 in_ = none)
    (hc : t.CloseSend (commitOpenOf t c ctx opts).1 = some e) :
    gatewayClient.Commit t c ctx in_ opts
      = some ((none, some e),
          [commitOpenCallOf c ctx opts,
           StreamCall.SendMsg (commitOpenOf t c ctx opts).1 in_,
           StreamCall.CloseSend (commitOpenOf t c ctx opts).1]) := by
  unfold commitOpenOf at ho hs hc ⊢
  unfold gatewayClient.Commit
  simp only [_Gateway_serviceDesc_Streams, List.getElem?_cons_zero, ho, hs, hc]
  rfl

/-- The run of `Commit` when all three steps succeed. -/
theorem Commit_of_success (t : Transport) (c : GatewayClient) (ctx : Context)
    (in_ : Option PreparedTransaction) (opts : List CallOption)
    (ho : (commitOpenOf t c ctx opts).2 = none)
    (hs : t.SendMsg (commitOpenOf t c ctx opts).1 in_ = none)
    (hc : t.CloseSend (commitOpenOf t c ctx opts).1 = none) :
    gatewayClient.Commit t c ctx in_ opts
      = some ((some { ClientStream := (commitOpenOf t c ctx opts).1 }, none),
          [commitOpenCallOf c ctx opts,
           StreamCall.SendMsg (commitOpenOf t c ctx opts).1 in_,
           StreamCall.CloseSend (commitOpenOf t c ctx opts).1]) := by
  unfold commitOpenOf at ho hs hc ⊢
  unfold gatewayClient.Commit
  simp only [_Gateway_serviceDesc_Streams, List.getElem?_cons_zero, ho, hs, hc]
  rfl

/-- C12: `Commit` opens one stream, sends the prepared transaction `p` as the
one message and then half-closes the send side, in this order, and returns the
stream handle exactly when all three steps succeed; if opening, sending or
half-closing fails with error `e`, it returns no handle and `e` itself, and
makes no later call; no step is ever repeated. -/
theorem Commit_opens_sends_halfcloses (t : Transport) (c : GatewayClient) (ctx : Context)
    (p : PreparedTransaction) (opts : List CallOption) :
    ∃ r calls, gatewayClient.Commit t c ctx (some p) opts = some (r, calls)
      ∧ (∃ n, 1 ≤ n ∧ calls
          = ([commitOpenCallOf c ctx opts,
              StreamCall.SendMsg (commitOpenOf t c ctx opts).1 (some p),
              StreamCall.CloseSend (commitOpenOf t c ctx opts).1]).take n)
      ∧ ((∃ x, r = (some x, none))
          ↔ ((commitOpenOf t c ctx opts).2 = none
            ∧ t.SendMsg (commitOpenOf t c ctx opts).1 (some p) = none
            ∧ t.CloseSend (commitOpenOf t c ctx opts).1 = none))
      ∧ ((commitOpenOf t c ctx opts).2 = none →
          t.SendMsg (commitOpenOf t c ctx opts).1 (some p) = none →
          t.CloseSend (commitOpenOf t c ctx opts).1 = none →
          r = (some { ClientStream := (commitOpenOf t c ctx opts).1 }, none)
          ∧ calls = [commitOpenCallOf c ctx opts,
              StreamCall.SendMsg (commitOpenOf t c ctx opts).1 (some p),
              StreamCall.CloseSend (commitOpenOf t c ctx opts).1])
      ∧ (∀ e, (commitOpenOf t c ctx opts).2 = some e →
          r = (none, some e) ∧ calls = [commitOpenCallOf c ctx opts])
      ∧ (∀ e, (commitOpenOf t c ctx opts).2 = none →
          t.SendMsg (commitOpenOf t c ctx opts).1 (some p) = some e →
          r = (none, some e)
          ∧ calls = [commitOpenCallOf c ctx opts,
              StreamCall.SendMsg (commitOpenOf t c ctx opts).1 (some p)])
      ∧ (∀ e, (commitOpenOf t c ctx opts).2 = none →
          t.SendMsg (commitOpenOf t c ctx opts).1 (some p) = none →
          t.CloseSend (commitOpenOf t c ctx opts).1 = some e →
          r = (none, some e)
          ∧ calls = [commitOpenCallOf c ctx opts,
              StreamCall.SendMsg (commitOpenOf t c ctx opts).1 (some p),
              StreamCall.CloseSend (commitOpenOf t c ctx opts).1]) := by
  rcases ho : (commitOpenOf t c ctx opts).2 with _ | e
  · rcases hs : t.SendMsg (commitOpenOf t c ctx opts).1 (some p) with _ | e
    · rcases hc : t.CloseSend (commitOpenOf t c ctx opts).1 with _ | e
      · rw [Commit_of_success t c ctx (some p) opts ho hs hc]
        exact ⟨_, _, rfl, ⟨3, by decide, rfl⟩, by simp, by simp, by simp, by simp, by simp⟩
      · rw [Commit_of_close_error t c ctx (some p) opts e ho hs hc]
        exact ⟨_, _, rfl, ⟨3, by decide, rfl⟩, by simp, by simp, by simp, by simp, by simp⟩
    · rw [Commit_of_send_error t c ctx (some p) opts e ho hs]
      exact ⟨_, _, rfl, ⟨2, by decide, rfl⟩, by simp, by simp, by simp, by simp, by simp⟩
  · rw [Commit_of_open_error t c ctx (some p) opts e ho]
    exact ⟨_, _, rfl, ⟨1, by decide, rfl⟩, by simp, by simp, by simp, by simp, by simp⟩

/-- C12 at concrete inputs: the sample prepared transaction over the sample
transport, when every step succeeds and when each of the three steps fails
with the sample error. -/
theorem Commit_opens_sends_halfcloses_witness :
    gatewayClient.Commit (sampleTransport none none none) ⟨1⟩ ⟨0⟩ (some samplePrepared) []
      = some ((some { ClientStream := ⟨5⟩ }, none),
          [StreamCall.NewStream 1 ⟨0⟩
              { StreamName := GoString.lit "Commit", ServerStreams := true }
              (GoString.lit "/protos.Gateway/Commit") [],
           StreamCall.SendMsg ⟨5⟩ (some samplePrepared),
           StreamCall.CloseSend ⟨5⟩])
    ∧ gatewayClient.Commit (sampleTransport (some sampleError) none none) ⟨1⟩ ⟨0⟩
        (some samplePrepared) []
      = some ((none, some sampleError),
          [StreamCall.NewStream 1 ⟨0⟩
              { StreamName := GoString.lit "Commit", ServerStreams := true }
              (GoString.lit "/protos.Gateway/Commit") []])
    ∧ gatewayClient.Commit (sampleTransport none (some sampleError) none) ⟨1⟩ ⟨0⟩
        (some samplePrepared) []
      = some ((none, some sampleError),
          [StreamCall.NewStream 1 ⟨0⟩
              { StreamName := GoString.lit "Commit", ServerStreams := true }
              (GoString.lit "/protos.Gateway/Commit") [],
           StreamCall.SendMsg ⟨5⟩ (some samplePrepared)])
    ∧ gatewayClient.Commit (sampleTransport none none (some sampleError)) ⟨1⟩ ⟨0⟩
        (some samplePrepared) []
      = some ((none, some sampleError),
          [StreamCall.NewStream 1 ⟨0⟩
              { StreamName := GoString.lit "Commit", ServerStreams := true }
              (GoString.lit "/protos.Gateway/Commit") [],
           StreamCall.SendMsg ⟨5⟩ (some samplePrepared),
           StreamCall.CloseSend ⟨5⟩]) := by
  refine ⟨?_, ?_, ?_, ?_⟩
  · obtain ⟨r, calls, hrun, _, _, hok, _, _, _⟩ :=
      Commit_opens_sends_halfcloses (sampleTransport none none none) ⟨1⟩ ⟨0⟩ samplePrepared []
    obtain ⟨hr, hcalls⟩ := hok rfl rfl rfl
    rw [hrun, hr, hcalls]
    rfl
  · obtain ⟨r, calls, hrun, _, _, _, hopen, _, _⟩ :=
      Commit_opens_sends_halfcloses (sampleTransport (some sampleError) none none) ⟨1⟩ ⟨0⟩
        samplePrepared []
    obtain ⟨hr, hcalls⟩ := hopen sampleError rfl
    rw [hrun, hr, hcalls]
    rfl
  · obtain ⟨r, calls, hrun, _, _, _, _, hsend, _⟩ :=
      Commit_opens_sends_halfcloses (sampleTransport none (some sampleError) none) ⟨1⟩ ⟨0⟩
        samplePrepared []
    obtain ⟨hr, hcalls⟩ := hsend sampleError rfl rfl
    rw [hrun, hr, hcalls]
    rfl
  · obtain ⟨r, calls, hrun, _, _, _, _, _, hclose⟩ :=
      Commit_opens_sends_halfcloses (sampleTransport none none (some sampleError)) ⟨1⟩ ⟨0⟩
        samplePrepared []
    obtain ⟨hr, hcalls⟩ := hclose sampleError rfl rfl rfl
    rw [hrun, hr, hcalls]
    rfl

/-! ## Frame and totality -/

/-- The write to index 0 of the slice that `chaincodeArgs` makes is in bounds. -/
theorem setIndex_make_zero (n : Nat) (v : Bytes) :
    setIndex (make (n + 1)) 0 v = some (v :: List.replicate n []) := by
  simp [setIndex, make, List.replicate_succ]

/-- A run of `chaincodeArgs` returns its receiver as it was, with the argument
vector. -/
theorem chaincodeArgsRun_eq (builder : proposalBuilder) :
    builder.chaincodeArgsRun
      = some (builder, builder.transactionName.toBytes :: builder.args) := by
  unfold proposalBuilder.chaincodeArgsRun
  simp only [setIndex_make_zero, copyFrom, List.take_succ_cons, List.take_zero,
    List.drop_succ_cons, List.drop_zero, List.singleton_append]
  rw [copy_same_length _ _ (by simp)]

/-- C13: the options returned by `WithArguments` and `WithStringArguments`
return a nil error and change the builder's `args` only, keeping the existing
arguments as the leading part; the option returned by `WithTransient` returns
a nil error and changes `transient` only; `chaincodeArgs` never fails (the
write to index 0 is in bounds, also without arguments and with an empty
transaction name) and leaves every builder field unchanged. -/
theorem options_frame_and_chaincodeArgs_total (builder : proposalBuilder) (a : List Bytes)
    (ss : List GoString) (m : TransientMap) :
    ((WithArguments a builder).2 = none
      ∧ (WithArguments a builder).1.client = builder.client
      ∧ (WithArguments a builder).1.signingID = builder.signingID
      ∧ (WithArguments a builder).1.channelName = builder.channelName
      ∧ (WithArguments a builder).1.chaincodeID = builder.chaincodeID
      ∧ (WithArguments a builder).1.transactionName = builder.transactionName
      ∧ (WithArguments a builder).1.transient = builder.transient
      ∧ (WithArguments a builder).1.args = builder.args ++ a
      ∧ (WithArguments a builder).1.args.take builder.args.length = builder.args)
    ∧ ((WithStringArguments ss builder).2 = none
      ∧ (WithStringArguments ss builder).1.client = builder.client
      ∧ (WithStringArguments ss builder).1.signingID = builder.signingID
      ∧ (WithStringArguments ss builder).1.channelName = builder.channelName
      ∧ (WithStringArguments ss builder).1.chaincodeID = builder.chaincodeID
      ∧ (WithStringArguments ss builder).1.transactionName = builder.transactionName
      ∧ (WithStringArguments ss builder).1.transient = builder.transient
      ∧ (WithStringArguments ss builder).1.args = builder.args ++ ss.map GoString.toBytes
      ∧ (WithStringArguments ss builder).1.args.take builder.args.length = builder.args)
    ∧ ((WithTransient m builder).2 = none
      ∧ (WithTransient m builder).1.client = builder.client
      ∧ (WithTransient m builder).1.signingID = builder.signingID
      ∧ (WithTransient m builder).1.channelName = builder.channelName
      ∧ (WithTransient m builder).1.chaincodeID = builder.chaincodeID
      ∧ (WithTransient m builder).1.transactionName = builder.transactionName
      ∧ (WithTransient m builder).1.args = builder.args
      ∧ (WithTransient m builder).1.transient = m)
    ∧ (builder.chaincodeArgs.isSome = true
      ∧ (setIndex (make (builder.args.length + 1)) 0 builder.transactionName.toBytes).isSome
          = true
      ∧ ({ builder with args := [], transactionName := GoString.empty }
          : proposalBuilder).chaincodeArgs = some [[]]
      ∧ builder.chaincodeArgsRun.map (fun r => r.1) = some builder
      ∧ builder.chaincodeArgsRun.map (fun r => r.2) = builder.chaincodeArgs) := by
  refine ⟨⟨rfl, rfl, rfl, rfl, rfl, rfl, rfl, rfl, ?_⟩,
    ⟨rfl, rfl, rfl, rfl, rfl, rfl, rfl, ?_, ?_⟩,
    ⟨rfl, rfl, rfl, rfl, rfl, rfl, rfl, rfl⟩, ?_, ?_, ?_, ?_, ?_⟩
  · simp [WithArguments]
  · simp [WithStringArguments, WithArguments, stringsAsBytes_eq_map]
  · simp [WithStringArguments, WithArguments]
  · rw [chaincodeArgs_eq]; rfl
  · rw [setIndex_make_zero]; rfl
  · rw [chaincodeArgs_eq]; rfl
  · rw [chaincodeArgsRun_eq]; rfl
  · rw [chaincodeArgsRun_eq, chaincodeArgs_eq]; rfl

end FabricGateway
